import Mathlib

/-!
Verification of the CPU-load side-channel modem (tx.cpp / rx.cpp /
side_channel_params.hpp) against its specification.  The pure data-path of
the program is embedded shallowly: the CRC, the TX bit framer, the RX symbol
reader and frame assembler, the correlation channel, and the deadline-cursor
discipline of the TX PHY driver.  Machine integers are modelled as Nat/Int
with explicit truncation where the C width matters; the float correlation
estimate is modelled as an exact rational.
-/

namespace SideChannel

/-- CRC-16-CCITT shift-xor round: one of the eight unrolled steps inside
crcAdd, acting on the 16-bit register held as a Nat below 2 ^ 16. -/
def crcRound (x : Nat) : Nat :=
  ((x <<< 1) % 65536) ^^^ (if x &&& 0x8000 ≠ 0 then 0x1021 else 0)

/-- Embedding of side_channel::crcAdd: the crc and byte parameters are
truncated to their C widths (uint16, uint8), the byte is xored into the top
of the register, and eight rounds are applied. -/
def crcAdd (crc byte : Nat) : Nat :=
  crcRound (crcRound (crcRound (crcRound (crcRound (crcRound (crcRound (crcRound
    ((crc % 65536) ^^^ ((byte % 256) <<< 8)))))))))

/-- Initial CRC register, side_channel::CRCInitial. -/
def CRCInitial : Nat := 0xFFFF

/-- CRC register after folding crcAdd over a byte list starting from
CRCInitial: both emitPacket (TX) and FrameAssembler (RX) perform exactly this
fold. -/
def crc16 (data : List Nat) : Nat := data.foldl crcAdd CRCInitial

/-- Bits of one byte MSB-first: the emitByte loop tests data against 1 <<< i
for i from 7 down to 0. -/
def byteBits (d : Nat) : List Bool :=
  [d.testBit 7, d.testBit 6, d.testBit 5, d.testBit 4,
   d.testBit 3, d.testBit 2, d.testBit 1, d.testBit 0]

/-- Embedding of emitByte at the logical-bit level: one high start bit, then
the eight data bits MSB-first; the parameter is truncated to uint8 width. -/
def emitByteBits (d : Nat) : List Bool := true :: byteBits (d % 256)

/-- Embedding of emitFrameDelimiter at the logical-bit level: 20 zero bits. -/
def delimiterBits : List Bool := List.replicate 20 false

/-- Embedding of emitPacket at the logical-bit level: opening delimiter, then
every payload byte followed by the two CRC bytes (high byte first, each cast
to uint8), then the closing delimiter.  The source loop accumulates the same
crcAdd fold as crc16 while emitting the payload bytes. -/
def emitPacketBits (data : List Nat) : List Bool :=
  delimiterBits
    ++ (data ++ [(crc16 data >>> 8) % 256, crc16 data % 256]).flatMap emitByteBits
    ++ delimiterBits

/-- Symbols produced by SymbolReader::next: the std::variant of Delimiter and
uint8. -/
inductive Symbol
  | delimiter
  | data (b : Nat)
deriving DecidableEq

/-- Mutable state of SymbolReader: consecutive_zeros_ (uint64, modelled as
Nat), buffer_ (uint8), remaining_bits_ (int8, only ever in -1..7). -/
structure SymbolReaderState where
  consecutiveZeros : Nat
  buffer : Nat
  remainingBits : Int
deriving DecidableEq

/-- Initial SymbolReader state: zero zeros seen, empty buffer, outside a
byte. -/
def readerInit : SymbolReaderState := ⟨0, 0, -1⟩

/-- One loop iteration of SymbolReader::next on one received bit, returning
the new state and the symbol yielded, if any. -/
def readerStep (s : SymbolReaderState) (bit : Bool) : SymbolReaderState × Option Symbol :=
  if 0 ≤ s.remainingBits then
    let buf := (s.buffer * 2 + (if bit then 1 else 0)) % 256
    let rb := s.remainingBits - 1
    if rb < 0 then ({ s with buffer := buf, remainingBits := rb }, some (.data buf))
    else ({ s with buffer := buf, remainingBits := rb }, none)
  else if bit then
    ({ consecutiveZeros := 0, buffer := 0, remainingBits := 7 }, none)
  else
    let cz := s.consecutiveZeros + 1
    if 8 < cz then ({ s with consecutiveZeros := cz, remainingBits := -1 }, some .delimiter)
    else ({ s with consecutiveZeros := cz }, none)

/-- Run the symbol reader over a bit list, collecting yielded symbols in
order. -/
def runReader (s : SymbolReaderState) : List Bool → SymbolReaderState × List Symbol
  | [] => (s, [])
  | b :: rest =>
    ((runReader (readerStep s b).1 rest).1,
     (readerStep s b).2.toList ++ (runReader (readerStep s b).1 rest).2)

/-- One visit of PacketReader::FrameAssembler on one symbol: a data byte is
appended to the buffer; a delimiter yields the buffer minus its two trailing
CRC bytes when the buffer holds at least two bytes and the crcAdd fold over
the whole buffer is zero, and clears the buffer unconditionally. -/
def assemblerStep (buffer : List Nat) : Symbol → List Nat × Option (List Nat)
  | .data b => (buffer ++ [b], none)
  | .delimiter =>
    if 2 ≤ buffer.length then
      if crc16 buffer = 0 then ([], some buffer.dropLast.dropLast)
      else ([], none)
    else ([], none)

/-- Run the frame assembler over a symbol list, collecting yielded packets in
order. -/
def runAssembler (buffer : List Nat) : List Symbol → List Nat × List (List Nat)
  | [] => (buffer, [])
  | s :: rest =>
    ((runAssembler (assemblerStep buffer s).1 rest).1,
     (assemblerStep buffer s).2.toList ++ (runAssembler (assemblerStep buffer s).1 rest).2)

/-- RX pipeline downstream of the bit slicer: symbol reader feeding the frame
assembler, collecting every packet yielded, exactly as PacketReader::next
does in a loop. -/
def decodePackets (bits : List Bool) : List (List Nat) :=
  (runAssembler [] (runReader readerInit bits).2).2

/-- The 1023-bit Gold spread code side_channel::params::CDMACode.  Bit i of
this number is CDMACode[i] of the std::bitset, whose string constructor maps
the last character of the literal to bit 0. -/
def CDMACodeBits : Nat :=
  0x641ca4f289f5688aac8f4fdb9be5508075226f07ae67b0179f5316e37a8ac100818ec0e37fd3a5b0ab1396ec77786c32483696f170293f055cfaf998e36ab637700166ced055d74a39c4a296856d6c73d90fcb443eae6492ffc3ef1b961ca852bf1ed3b3f7d18f80945a226c0ed1a2471664f37e6534d79b53bc6a211270e510

/-- Length of the spread code, side_channel::params::CDMACodeLength. -/
def CDMACodeLength : Nat := 1023

/-- Indexing into the spread code bitset. -/
def CDMACode (i : Nat) : Bool := CDMACodeBits.testBit i

/-- OversamplingFactor of rx.cpp. -/
def OversamplingFactor : Nat := 3

/-- Correlator::SequenceLength, the length of the expanded sequence and the
number of channels in the bank. -/
def SequenceLength : Nat := CDMACodeLength * OversamplingFactor

/-- The expanded spread code seq built in the Correlator constructor, where
each code bit is repeated OversamplingFactor times, given as its indexing
function: seq[3 * i + j] = CDMACode[i]. -/
def expandedCode (n : Nat) : Bool := CDMACode (n / OversamplingFactor)

/-- State of one CorrelationChannel.  The vector<bool> spread_code_ member is
modelled by its indexing function together with its size; the float
correlation_ is modelled as an exact rational. -/
structure CorrelationChannel where
  spreadCode : Nat → Bool
  codeLen : Nat
  position : Nat
  matchHi : Nat
  matchLo : Nat
  correlation : ℚ
  state : Bool

/-- Constructor CorrelationChannel(spread_code, offset): the cursor starts at
the offset, both counters at zero, correlation at zero. -/
def CorrelationChannel.mk0 (code : Nat → Bool) (len offset : Nat) : CorrelationChannel :=
  ⟨code, len, offset, 0, 0, 0, false⟩

/-- CorrelationChannel::updateCorrelation: the larger counter minus the
smaller counter (an unsigned subtraction with top ≥ bot), divided by the
position; the float quotient is modelled as the exact rational mkRat. -/
def CorrelationChannel.updateCorrelation (ch : CorrelationChannel) : ℚ :=
  let hiTop := ch.matchLo < ch.matchHi
  let top := if hiTop then ch.matchHi else ch.matchLo
  let bot := if hiTop then ch.matchLo else ch.matchHi
  mkRat ((top - bot : Nat) : Int) ch.position

/-- CorrelationChannel::Result. -/
structure ChannelResult where
  correlation : ℚ
  data : Bool
  clock : Bool

/-- CorrelationChannel::feed: on period end (cursor past the code) record the
correlation and decoded bit and reset cursor and counters; then match the
sample against the code at the cursor, bump the matching counter, advance the
cursor, and report correlation, decoded bit and recovered clock. -/
def CorrelationChannel.feed (ch : CorrelationChannel) (sample : Bool) :
    CorrelationChannel × ChannelResult :=
  let ch1 :=
    if ch.codeLen ≤ ch.position then
      { ch with correlation := ch.updateCorrelation,
                state := ch.matchLo < ch.matchHi,
                position := 0, matchHi := 0, matchLo := 0 }
    else ch
  let ch2 :=
    if sample = ch1.spreadCode ch1.position then { ch1 with matchHi := ch1.matchHi + 1 }
    else { ch1 with matchLo := ch1.matchLo + 1 }
  let ch3 := { ch2 with position := ch2.position + 1 }
  (ch3, ⟨ch3.correlation, ch3.state, ch3.codeLen / 2 < ch3.position⟩)

/-- Feed a whole sample list to a channel. -/
def CorrelationChannel.run (ch : CorrelationChannel) (samples : List Bool) :
    CorrelationChannel :=
  samples.foldl (fun c s => (c.feed s).1) ch

/-- Channel number i of the Correlator constructor: the expanded code with
starting cursor i. -/
def bankChannel (i : Nat) : CorrelationChannel :=
  CorrelationChannel.mk0 expandedCode SequenceLength i

/-- Sample stream consisting of the expanded spread code read cyclically
starting at offset k, n samples long. -/
def alignedStream (k n : Nat) : List Bool :=
  (List.range n).map fun t => expandedCode ((k + t) % SequenceLength)

/-- Deadline-cursor transition of drivePHY (identical in both 1023-bit TX
variants): the persistent deadline is advanced by the duration before any
waiting happens.  The level argument only selects busy-loop versus sleep and
the clock reading now is never written back into the cursor, so neither
affects the result; the waiting itself is real time and is not modelled. -/
def drivePHY (deadline : Int) (_level : Bool) (_now : Int) (duration : Int) : Int :=
  deadline + duration

/-- Deadline cursor after a sequence of drivePHY calls, each given as (level,
clock reading at call time, duration). -/
def runTX (d0 : Int) (calls : List (Bool × Int × Int)) : Int :=
  calls.foldl (fun d c => drivePHY d c.1 c.2.1 c.2.2) d0

/-! ### CRC-16-CCITT algebra -/

theorem crcRound_lt (x : Nat) : crcRound x < 65536 := by
  unfold crcRound
  have h1 : (x <<< 1) % 65536 < 65536 := Nat.mod_lt _ (by norm_num)
  have h2 : (if x &&& 0x8000 ≠ 0 then 0x1021 else 0) < 65536 := by split <;> norm_num
  have e : (65536 : Nat) = 2 ^ 16 := by norm_num
  exact e ▸ Nat.xor_lt_two_pow (e ▸ h1) (e ▸ h2)

theorem crcAdd_lt (crc byte : Nat) : crcAdd crc byte < 65536 := crcRound_lt _

theorem foldl_crcAdd_lt (B : List Nat) (c : Nat) (hc : c < 65536) :
    B.foldl crcAdd c < 65536 := by
  induction B generalizing c with
  | nil => exact hc
  | cons b rest ih => exact ih _ (crcAdd_lt c b)

theorem crc16_lt (B : List Nat) : crc16 B < 65536 :=
  foldl_crcAdd_lt B CRCInitial (by norm_num [CRCInitial])

/-- A round on a register with a clear top bit is a pure doubling. -/
theorem crcRound_of_lt {y : Nat} (h : y < 32768) : crcRound y = 2 * y := by
  have hbit : y &&& 0x8000 = 0 := by
    apply Nat.eq_of_testBit_eq
    intro i
    simp only [Nat.testBit_and, Nat.zero_testBit]
    rcases eq_or_ne i 15 with rfl | hne
    · rw [Nat.testBit_lt_two_pow (x := y) (by norm_num at h ⊢; omega)]
      simp
    · have : Nat.testBit 0x8000 i = false := by
        have e : (0x8000 : Nat) = 2 ^ 15 := by norm_num
        rw [e, Nat.testBit_two_pow]
        simpa using fun hc => hne hc.symm
      simp [this]
  unfold crcRound
  rw [if_neg (by simp [hbit])]
  rw [Nat.xor_zero, Nat.shiftLeft_eq, pow_one, Nat.mod_eq_of_lt (by omega)]
  ring

/-- Xoring the high byte of a register back into its top clears the top,
leaving the low byte. -/
theorem xor_high_byte (c : Nat) : c ^^^ ((c >>> 8) <<< 8) = c % 256 := by
  apply Nat.eq_of_testBit_eq
  intro i
  have e : (256 : Nat) = 2 ^ 8 := by norm_num
  simp only [Nat.testBit_xor, Nat.testBit_shiftLeft, Nat.testBit_shiftRight, e,
    Nat.testBit_mod_two_pow]
  by_cases h8 : 8 ≤ i
  · have : 8 + (i - 8) = i := by omega
    simp [h8, this, Nat.not_lt.mpr h8]
  · simp [h8, Nat.lt_of_not_le h8]

/-- Feeding the two register bytes, high first, zeroes any 16-bit CRC
register: the core of the residue law. -/
theorem crcAdd_high_low {c : Nat} (hc : c < 65536) :
    crcAdd (crcAdd c (c >>> 8)) (c % 256) = 0 := by
  have hr : c % 256 < 256 := Nat.mod_lt _ (by norm_num)
  have hhi : c >>> 8 < 256 := by
    rw [Nat.shiftRight_eq_div_pow]
    omega
  have inner : crcAdd c (c >>> 8) = 256 * (c % 256) := by
    unfold crcAdd
    rw [Nat.mod_eq_of_lt hc, Nat.mod_eq_of_lt hhi, xor_high_byte]
    have s1 : crcRound (c % 256) = 2 * (c % 256) := crcRound_of_lt (by omega)
    have s2 : crcRound (2 * (c % 256)) = 4 * (c % 256) := by
      rw [crcRound_of_lt (by omega)]; ring
    have s3 : crcRound (4 * (c % 256)) = 8 * (c % 256) := by
      rw [crcRound_of_lt (by omega)]; ring
    have s4 : crcRound (8 * (c % 256)) = 16 * (c % 256) := by
      rw [crcRound_of_lt (by omega)]; ring
    have s5 : crcRound (16 * (c % 256)) = 32 * (c % 256) := by
      rw [crcRound_of_lt (by omega)]; ring
    have s6 : crcRound (32 * (c % 256)) = 64 * (c % 256) := by
      rw [crcRound_of_lt (by omega)]; ring
    have s7 : crcRound (64 * (c % 256)) = 128 * (c % 256) := by
      rw [crcRound_of_lt (by omega)]; ring
    have s8 : crcRound (128 * (c % 256)) = 256 * (c % 256) := by
      rw [crcRound_of_lt (by omega)]; ring
    rw [s1, s2, s3, s4, s5, s6, s7, s8]
  rw [inner]
  unfold crcAdd
  rw [Nat.mod_eq_of_lt (by omega), Nat.mod_eq_of_lt hr, Nat.shiftLeft_eq]
  have e : c % 256 * 2 ^ 8 = 256 * (c % 256) := by ring
  rw [e, Nat.xor_self]
  rfl

/-- Residue law for the crcAdd fold: appending the current register, high
byte then low byte, always drives the register to zero. -/
theorem crc16_append_crc (B : List Nat) :
    crc16 (B ++ [(crc16 B >>> 8) % 256, crc16 B % 256]) = 0 := by
  have hc := crc16_lt B
  have hhi : crc16 B >>> 8 < 256 := by
    rw [Nat.shiftRight_eq_div_pow]
    omega
  unfold crc16
  rw [List.foldl_append]
  show crcAdd (crcAdd (crc16 B) ((crc16 B >>> 8) % 256)) (crc16 B % 256) = 0
  rw [Nat.mod_eq_of_lt hhi]
  exact crcAdd_high_low hc

/-! ### Symbol reader lemmas -/

theorem runReader_append (s : SymbolReaderState) (b1 b2 : List Bool) :
    runReader s (b1 ++ b2) =
      ((runReader (runReader s b1).1 b2).1,
       (runReader s b1).2 ++ (runReader (runReader s b1).1 b2).2) := by
  induction b1 generalizing s with
  | nil => simp [runReader]
  | cons b rest ih =>
    simp only [List.cons_append, runReader, List.append_eq, ih, List.append_assoc]

/-- A zero bit received outside a byte bumps the zero counter and yields a
delimiter exactly when the bumped counter exceeds eight. -/
theorem readerStep_zero (cz buf : Nat) :
    readerStep ⟨cz, buf, -1⟩ false =
      (⟨cz + 1, buf, -1⟩, if 8 < cz + 1 then some Symbol.delimiter else none) := by
  by_cases h : 8 < cz + 1
  · simp [readerStep, h]
  · simp [readerStep, h]

/-- Running n zero bits from outside a byte counts them all and yields one
delimiter for every zero past the eighth, counting from the zero counter's
starting value. -/
theorem runReader_zeros (n : Nat) : ∀ cz buf : Nat,
    runReader ⟨cz, buf, -1⟩ (List.replicate n false) =
      (⟨cz + n, buf, -1⟩, List.replicate (cz + n - max cz 8) Symbol.delimiter) := by
  induction n with
  | zero =>
    intro cz buf
    rw [show cz + 0 - max cz 8 = 0 from by omega]
    simp [runReader]
  | succ n ih =>
    intro cz buf
    rw [List.replicate_succ, runReader, readerStep_zero, ih (cz + 1) buf]
    by_cases h : 8 < cz + 1
    · rw [if_pos h]
      refine Prod.ext (by simp; omega) ?_
      show Symbol.delimiter :: List.replicate (cz + 1 + n - max (cz + 1) 8) Symbol.delimiter
          = List.replicate (cz + (n + 1) - max cz 8) Symbol.delimiter
      rw [← List.replicate_succ]
      congr 1
      omega
    · rw [if_neg h]
      refine Prod.ext (by simp; omega) ?_
      show List.replicate (cz + 1 + n - max (cz + 1) 8) Symbol.delimiter
          = List.replicate (cz + (n + 1) - max cz 8) Symbol.delimiter
      congr 1
      omega

/-- A start bit received outside a byte opens a fresh byte: counter cleared,
buffer cleared, seven more bits to read after this one. -/
theorem readerStep_start (cz buf : Nat) :
    readerStep ⟨cz, buf, -1⟩ true = (⟨0, 0, 7⟩, none) := rfl

set_option maxRecDepth 4096 in
/-- Inside a freshly opened byte, the next eight bits are assembled MSB-first
and yielded as a data symbol, leaving the reader outside a byte with a clear
zero counter. -/
theorem runReader_byte_body : ∀ d : Fin 256,
    runReader ⟨0, 0, 7⟩ (byteBits d) = (⟨0, (d : Nat), -1⟩, [Symbol.data (d : Nat)]) := by
  decide

/-- A full framed byte (start bit plus eight data bits) is read back as
exactly its value, from any outside-a-byte reader state. -/
theorem runReader_byte (cz buf d : Nat) (hd : d < 256) :
    runReader ⟨cz, buf, -1⟩ (emitByteBits d) = (⟨0, d, -1⟩, [Symbol.data d]) := by
  have hm : d % 256 = d := Nat.mod_eq_of_lt hd
  show runReader ⟨cz, buf, -1⟩ (true :: byteBits (d % 256)) = _
  rw [runReader, readerStep_start]
  have hb := runReader_byte_body ⟨d, hd⟩
  simp only [Fin.val_mk] at hb
  rw [hm, hb]
  rfl

/-- A nonempty sequence of framed bytes is read back as exactly its byte
values, ending outside a byte with a clear zero counter. -/
theorem runReader_bytes (bs : List Nat) (b0 : Nat) : ∀ cz buf : Nat, b0 < 256 →
    (∀ b ∈ bs, b < 256) →
    ∃ buf2, runReader ⟨cz, buf, -1⟩ ((b0 :: bs).flatMap emitByteBits)
      = (⟨0, buf2, -1⟩, (b0 :: bs).map Symbol.data) := by
  induction bs generalizing b0 with
  | nil =>
    intro cz buf h0 _
    refine ⟨b0, ?_⟩
    simp only [List.flatMap_cons, List.flatMap_nil, List.append_nil, List.map_cons,
      List.map_nil]
    exact runReader_byte cz buf b0 h0
  | cons b1 bs ih =>
    intro cz buf h0 hbs
    obtain ⟨buf2, h2⟩ := ih b1 0 b0 (hbs b1 (by simp)) (fun b hb => hbs b (by simp [hb]))
    refine ⟨buf2, ?_⟩
    have hsplit : (b0 :: b1 :: bs).flatMap emitByteBits
        = emitByteBits b0 ++ (b1 :: bs).flatMap emitByteBits := by
      simp [List.flatMap_cons]
    rw [hsplit, runReader_append, runReader_byte cz buf b0 h0, h2]
    simp

/-! ### Frame assembler lemmas -/

theorem runAssembler_append (buf : List Nat) (s1 s2 : List Symbol) :
    runAssembler buf (s1 ++ s2) =
      ((runAssembler (runAssembler buf s1).1 s2).1,
       (runAssembler buf s1).2 ++ (runAssembler (runAssembler buf s1).1 s2).2) := by
  induction s1 generalizing buf with
  | nil => simp [runAssembler]
  | cons s rest ih =>
    simp only [List.cons_append, runAssembler, List.append_eq, ih, List.append_assoc]

/-- Delimiters arriving on an empty buffer neither yield packets nor change
the buffer. -/
theorem runAssembler_delims_empty (n : Nat) :
    runAssembler [] (List.replicate n Symbol.delimiter) = ([], []) := by
  induction n with
  | zero => rfl
  | succ n ih => rw [List.replicate_succ, runAssembler]; simpa [assemblerStep] using ih

/-- Data symbols are appended to the buffer in order and yield nothing. -/
theorem runAssembler_data (bs : List Nat) : ∀ buf : List Nat,
    runAssembler buf (bs.map Symbol.data) = (buf ++ bs, []) := by
  induction bs with
  | nil => intro buf; simp [runAssembler]
  | cons b rest ih =>
    intro buf
    simp only [List.map_cons, runAssembler, assemblerStep, ih (buf ++ [b]),
      List.append_assoc, List.cons_append, List.nil_append]
    simp

/-! ### Framer and parser round trip -/

theorem dropLast_two (B : List Nat) (x y : Nat) :
    (B ++ [x, y]).dropLast.dropLast = B := by
  simp [List.dropLast_append_cons]

/-- Composition form of runReader_append. -/
theorem runReader_chain {s s1 s2 : SymbolReaderState} {b1 b2 : List Bool}
    {y1 y2 : List Symbol} (h1 : runReader s b1 = (s1, y1))
    (h2 : runReader s1 b2 = (s2, y2)) :
    runReader s (b1 ++ b2) = (s2, y1 ++ y2) := by
  rw [runReader_append]
  simp only [h1, h2]

/-- Composition form of runAssembler_append. -/
theorem runAssembler_chain {buf buf1 buf2 : List Nat} {s1 s2 : List Symbol}
    {p1 p2 : List (List Nat)} (h1 : runAssembler buf s1 = (buf1, p1))
    (h2 : runAssembler buf1 s2 = (buf2, p2)) :
    runAssembler buf (s1 ++ s2) = (buf2, p1 ++ p2) := by
  rw [runAssembler_append]
  simp only [h1, h2]

/-- C1 helper: one emitted packet decodes to exactly its payload. -/
theorem decode_emit (B : List Nat) (hB : ∀ b ∈ B, b < 256) :
    decodePackets (emitPacketBits B) = [B] := by
  have hball : ∀ b ∈ B ++ [(crc16 B >>> 8) % 256, crc16 B % 256], b < 256 := by
    intro b hb
    rcases List.mem_append.mp hb with h | h
    · exact hB b h
    · simp only [List.mem_cons, List.mem_singleton] at h
      rcases h with rfl | rfl | h
      · exact Nat.mod_lt _ (by norm_num)
      · exact Nat.mod_lt _ (by norm_num)
      · cases h
  obtain ⟨b0, bs, hcons⟩ :=
    List.exists_cons_of_ne_nil (l := B ++ [(crc16 B >>> 8) % 256, crc16 B % 256]) (by simp)
  rw [hcons] at hball
  obtain ⟨buf2, hmid⟩ := runReader_bytes bs b0 20 0 (hball b0 (by simp))
    (fun b hb => hball b (by simp [hb]))
  -- the reader pass
  have r1 : runReader ⟨0, 0, -1⟩ delimiterBits
      = (⟨20, 0, -1⟩, List.replicate 12 Symbol.delimiter) := runReader_zeros 20 0 0
  have r3 : runReader ⟨0, buf2, -1⟩ delimiterBits
      = (⟨20, buf2, -1⟩, List.replicate 12 Symbol.delimiter) := runReader_zeros 20 0 buf2
  have rall := runReader_chain (runReader_chain r1 hmid) r3
  -- the assembler pass
  have a1 : runAssembler [] (List.replicate 12 Symbol.delimiter) = ([], []) :=
    runAssembler_delims_empty 12
  have a2 : runAssembler [] ((b0 :: bs).map Symbol.data) = (b0 :: bs, []) :=
    runAssembler_data (b0 :: bs) []
  have hstep : assemblerStep (b0 :: bs) Symbol.delimiter = ([], some B) := by
    rw [← hcons]
    simp only [assemblerStep]
    rw [if_pos (by simp), if_pos (crc16_append_crc B), dropLast_two]
  have h1 : runAssembler (b0 :: bs) [Symbol.delimiter] = ([], [B]) := by
    show ((runAssembler (assemblerStep (b0 :: bs) Symbol.delimiter).1 []).1,
      (assemblerStep (b0 :: bs) Symbol.delimiter).2.toList
        ++ (runAssembler (assemblerStep (b0 :: bs) Symbol.delimiter).1 []).2) = ([], [B])
    rw [hstep]
    rfl
  have a3 : runAssembler (b0 :: bs) (List.replicate 12 Symbol.delimiter) = ([], [B]) := by
    have hrep : [Symbol.delimiter] ++ List.replicate 11 Symbol.delimiter
        = List.replicate 12 Symbol.delimiter := rfl
    have := runAssembler_chain h1 (runAssembler_delims_empty 11)
    rw [hrep] at this
    simpa using this
  have aall := runAssembler_chain (runAssembler_chain a1 a2) a3
  show (runAssembler [] (runReader ⟨0, 0, -1⟩
      (delimiterBits ++ (B ++ [(crc16 B >>> 8) % 256, crc16 B % 256]).flatMap emitByteBits
        ++ delimiterBits)).2).2 = [B]
  rw [hcons, rall]
  show (runAssembler [] ((List.replicate 12 Symbol.delimiter ++ (b0 :: bs).map Symbol.data)
      ++ List.replicate 12 Symbol.delimiter)).2 = [B]
  rw [aall]
  rfl

/-! ### Correlation channel invariant lemmas -/

/-- One feed preserves the counter relation: the counter sum equals the
cursor, or lags it by exactly the construction offset k (which happens before
the first wrap). -/
theorem feed_preserves_inv (ch : CorrelationChannel) (s : Bool) (k : Nat)
    (h : ch.matchHi + ch.matchLo = ch.position
      ∨ ch.matchHi + ch.matchLo + k = ch.position) :
    (ch.feed s).1.matchHi + (ch.feed s).1.matchLo = (ch.feed s).1.position
      ∨ (ch.feed s).1.matchHi + (ch.feed s).1.matchLo + k = (ch.feed s).1.position := by
  dsimp only [CorrelationChannel.feed]
  split_ifs <;> dsimp only <;> omega

/-- A feed that begins past the end of the code resets both counters and the
cursor before consuming the sample. -/
theorem feed_wrap (ch : CorrelationChannel) (s : Bool) (h : ch.codeLen ≤ ch.position) :
    (ch.feed s).1.position = 1 ∧ (ch.feed s).1.matchHi + (ch.feed s).1.matchLo = 1 := by
  dsimp only [CorrelationChannel.feed]
  rw [if_pos h]
  split_ifs <;> dsimp only <;> omega

theorem run_inv (samples : List Bool) (k : Nat) : ∀ ch : CorrelationChannel,
    (ch.matchHi + ch.matchLo = ch.position ∨ ch.matchHi + ch.matchLo + k = ch.position) →
    ((ch.run samples).matchHi + (ch.run samples).matchLo = (ch.run samples).position
      ∨ (ch.run samples).matchHi + (ch.run samples).matchLo + k
          = (ch.run samples).position) := by
  induction samples with
  | nil => intro ch h; exact h
  | cons s rest ih =>
    intro ch h
    have hstep := feed_preserves_inv ch s k h
    have : CorrelationChannel.run ch (s :: rest) = CorrelationChannel.run (ch.feed s).1 rest := by
      simp [CorrelationChannel.run]
    rw [this]
    exact ih _ hstep

/-! ### Claim theorems -/

/-- C1: for every payload B of at most 4096 bytes, the bit stream emitted by
the TX framer (opening delimiter, start-bit-framed data and CRC bytes,
closing delimiter), fed through the RX symbol reader and frame assembler,
decodes to exactly the single payload B. -/
theorem framer_parser_roundtrip (B : List Nat) (hB : ∀ b ∈ B, b < 256)
    (_hlen : B.length ≤ 4096) :
    decodePackets (emitPacketBits B) = [B] :=
  decode_emit B hB

theorem framer_parser_roundtrip_witness :
    (∀ b ∈ [1, 2, 3], b < 256) ∧ ([1, 2, 3] : List Nat).length ≤ 4096
      ∧ decodePackets (emitPacketBits [1, 2, 3]) = [[1, 2, 3]] :=
  ⟨by decide, by decide, framer_parser_roundtrip [1, 2, 3] (by decide) (by decide)⟩

/-- C2: CRC residue law: for every byte sequence B, appending the two bytes
of the crcAdd fold over B (high byte first, as the TX framer appends them)
drives the fold over the extended sequence to exactly zero. -/
theorem crc_residue_law (B : List Nat) :
    crc16 (B ++ [(crc16 B >>> 8) % 256, crc16 B % 256]) = 0 :=
  crc16_append_crc B

/-- C4: the empty payload is framed as delimiter, the two CRC trailer bytes
0xFF 0xFF (register 0xFFFF untouched by any data byte), delimiter; the RX
pipeline decodes that frame to exactly one zero-length packet. -/
theorem empty_payload_frame :
    crc16 [] = 0xFFFF
      ∧ (crc16 [] >>> 8) % 256 = 0xFF ∧ crc16 [] % 256 = 0xFF
      ∧ emitPacketBits []
          = delimiterBits ++ (emitByteBits 0xFF ++ emitByteBits 0xFF) ++ delimiterBits
      ∧ decodePackets (emitPacketBits []) = [[]] := by
  decide

/-- C5 counterexample: the program's CRC for the empty payload is not 0x1D0F:
the two trailer bytes the TX framer emits are 0xFF and 0xFF, and the register
is 0xFFFF. -/
theorem s3_crc_counterexample :
    (crc16 [] >>> 8) % 256 = 0xFF ∧ crc16 [] % 256 = 0xFF ∧ crc16 [] ≠ 0x1D0F := by
  decide

/-- C5 amended: the CRC computed for the empty payload is 0xFFFF (trailer
bytes 0xFF 0xFF), and the RX pipeline emits the empty packet for that
frame. -/
theorem s3_crc_amended :
    crc16 [] = 0xFFFF ∧ decodePackets (emitPacketBits []) = [[]] := by
  decide

/-- C6: outside a byte, a 1 bit opens a fresh byte (remaining bits 7, zeroed
buffer, zero counter reset), after which exactly the next eight bits are
assembled MSB-first and yielded as a data symbol, so the nine bits emitted by
the TX emitByte for byte d decode back to exactly d. -/
theorem reader_byte_recovery (cz buf d : Nat) (hd : d < 256) :
    readerStep ⟨cz, buf, -1⟩ true = (⟨0, 0, 7⟩, none)
      ∧ runReader ⟨cz, buf, -1⟩ (emitByteBits d) = (⟨0, d, -1⟩, [Symbol.data d]) :=
  ⟨readerStep_start cz buf, runReader_byte cz buf d hd⟩

theorem reader_byte_recovery_witness :
    (0xA5 : Nat) < 256
      ∧ (readerStep ⟨5, 77, -1⟩ true = (⟨0, 0, 7⟩, none)
        ∧ runReader ⟨5, 77, -1⟩ (emitByteBits 0xA5) = (⟨0, 0xA5, -1⟩, [Symbol.data 0xA5])) :=
  ⟨by decide, reader_byte_recovery 5 77 0xA5 (by decide)⟩

/-- C9: a delimiter symbol yields a payload exactly when the buffer holds at
least two bytes and the CRC residue over the whole buffer is zero (the
payload being the buffer minus its two trailing bytes); in every case the
buffer is cleared, so the assembly of any subsequent symbols proceeds exactly
as from a fresh assembler. -/
theorem assembler_delimiter_atomic (buf : List Nat) (rest : List Symbol) :
    assemblerStep buf Symbol.delimiter
        = ([], if 2 ≤ buf.length ∧ crc16 buf = 0 then some buf.dropLast.dropLast else none)
      ∧ (runAssembler buf (Symbol.delimiter :: rest)).2
          = (assemblerStep buf Symbol.delimiter).2.toList ++ (runAssembler [] rest).2 := by
  have hclear : (assemblerStep buf Symbol.delimiter).1 = [] := by
    unfold assemblerStep
    split_ifs <;> rfl
  constructor
  · unfold assemblerStep
    by_cases h1 : 2 ≤ buf.length
    · rw [if_pos h1]
      by_cases h2 : crc16 buf = 0
      · rw [if_pos h2, if_pos ⟨h1, h2⟩]
      · rw [if_neg h2, if_neg (by tauto)]
    · rw [if_neg h1, if_neg (by tauto)]
  · show ((runAssembler (assemblerStep buf Symbol.delimiter).1 rest).1,
      (assemblerStep buf Symbol.delimiter).2.toList
        ++ (runAssembler (assemblerStep buf Symbol.delimiter).1 rest).2).2 = _
    rw [hclear]

/-- C10: a run of z ≥ 9 zero bits arriving outside a byte yields one
delimiter on the ninth zero and one more on every further zero, z - 8 in
total, because the zero counter is not reset when a delimiter is yielded:
past eight, every additional zero bumps the counter and yields again. -/
theorem delimiter_per_extra_zero (z buf cz : Nat) (_hz : 9 ≤ z) (hcz : 8 ≤ cz) :
    runReader ⟨0, buf, -1⟩ (List.replicate z false)
        = (⟨z, buf, -1⟩, List.replicate (z - 8) Symbol.delimiter)
      ∧ readerStep ⟨cz, buf, -1⟩ false = (⟨cz + 1, buf, -1⟩, some Symbol.delimiter) := by
  constructor
  · have h := runReader_zeros z 0 buf
    simp only [Nat.zero_add, show (max 0 8 : Nat) = 8 from rfl] at h
    exact h
  · rw [readerStep_zero, if_pos (by omega)]

/-- C3 counterexample: a correlation channel constructed with starting cursor
offset 1 (channel 1 of the bank) violates match_hi + match_lo = position: at
construction the counter sum is 0 while the cursor is 1, and after one sample
the sum is 1 while the cursor is 2. -/
theorem channel_counter_counterexample :
    ((bankChannel 1).matchHi + (bankChannel 1).matchLo ≠ (bankChannel 1).position)
      ∧ (((bankChannel 1).run [expandedCode 1]).matchHi
            + ((bankChannel 1).run [expandedCode 1]).matchLo
          ≠ ((bankChannel 1).run [expandedCode 1]).position) := by
  decide

/-- C3 amended: for a channel constructed with any starting cursor offset k
and fed any sample sequence, the counter sum equals the cursor position or
lags it by exactly the construction offset k (the lag can only persist until
the first wrap; for k = 0 the claimed invariant holds outright); and any feed
that starts with the cursor past the code end resets both counters to 0
together with the cursor before consuming its sample, leaving sum and cursor
both equal to 1. -/
theorem channel_counter_invariant_amended :
    (∀ (code : Nat → Bool) (len k : Nat) (samples : List Bool),
      ((CorrelationChannel.mk0 code len k).run samples).matchHi
          + ((CorrelationChannel.mk0 code len k).run samples).matchLo
        = ((CorrelationChannel.mk0 code len k).run samples).position
      ∨ ((CorrelationChannel.mk0 code len k).run samples).matchHi
          + ((CorrelationChannel.mk0 code len k).run samples).matchLo + k
        = ((CorrelationChannel.mk0 code len k).run samples).position)
    ∧ ∀ (ch : CorrelationChannel) (s : Bool), ch.codeLen ≤ ch.position →
        (ch.feed s).1.position = 1
          ∧ (ch.feed s).1.matchHi + (ch.feed s).1.matchLo = 1 := by
  constructor
  · intro code len k samples
    exact run_inv samples k _ (Or.inr (by simp [CorrelationChannel.mk0]))
  · intro ch s h
    exact feed_wrap ch s h

theorem channel_counter_invariant_amended_witness :
    (((CorrelationChannel.mk0 expandedCode SequenceLength 0).run [true, false]).matchHi
          + ((CorrelationChannel.mk0 expandedCode SequenceLength 0).run [true, false]).matchLo
        = ((CorrelationChannel.mk0 expandedCode SequenceLength 0).run [true, false]).position
      ∨ ((CorrelationChannel.mk0 expandedCode SequenceLength 0).run [true, false]).matchHi
          + ((CorrelationChannel.mk0 expandedCode SequenceLength 0).run [true, false]).matchLo
            + 0
        = ((CorrelationChannel.mk0 expandedCode SequenceLength 0).run [true, false]).position)
    ∧ (((⟨expandedCode, 3069, 3069, 100, 50, 0, false⟩ : CorrelationChannel).feed true).1.position
          = 1
        ∧ ((⟨expandedCode, 3069, 3069, 100, 50, 0, false⟩ : CorrelationChannel).feed
              true).1.matchHi
            + ((⟨expandedCode, 3069, 3069, 100, 50, 0, false⟩ : CorrelationChannel).feed
              true).1.matchLo = 1) :=
  ⟨channel_counter_invariant_amended.1 expandedCode SequenceLength 0 [true, false],
   channel_counter_invariant_amended.2 ⟨expandedCode, 3069, 3069, 100, 50, 0, false⟩ true
    (by decide)⟩

/-- Cursor algebra of runTX: the deadline after any call sequence is the
initial deadline plus the sum of all durations. -/
theorem runTX_eq (calls : List (Bool × Int × Int)) : ∀ d0 : Int,
    runTX d0 calls = d0 + (calls.map fun c => c.2.2).sum := by
  induction calls with
  | nil => intro d0; simp [runTX]
  | cons c rest ih =>
    intro d0
    show runTX (d0 + c.2.2) rest = _
    rw [ih]
    simp only [List.map_cons, List.sum_cons]
    ring

/-- C8: the TX deadline cursor after n drivePHY calls equals its initial
value plus the sum of the n durations; the cursor transition never depends on
the level or on the clock reading at call time; hence with positive durations
the cursor is monotonically non-decreasing across the whole sequence. -/
theorem tx_deadline_cursor (d0 : Int) (calls : List (Bool × Int × Int)) :
    runTX d0 calls = d0 + (calls.map fun c => c.2.2).sum
      ∧ (∀ (d dur now1 now2 : Int) (lv1 lv2 : Bool),
          drivePHY d lv1 now1 dur = drivePHY d lv2 now2 dur)
      ∧ ((∀ c ∈ calls, 0 < c.2.2) → ∀ pre suf, calls = pre ++ suf →
          runTX d0 pre ≤ runTX d0 calls) := by
  refine ⟨runTX_eq calls d0, fun d dur n1 n2 l1 l2 => rfl, ?_⟩
  intro hpos pre suf hsplit
  rw [runTX_eq, runTX_eq, hsplit, List.map_append, List.sum_append]
  have hsum : 0 ≤ ((suf.map fun c => c.2.2)).sum := by
    apply List.sum_nonneg
    intro x hx
    obtain ⟨c, hc, rfl⟩ := List.mem_map.mp hx
    exact le_of_lt (hpos c (hsplit ▸ List.mem_append_right pre hc))
  omega

theorem tx_deadline_cursor_witness :
    runTX 0 [(true, 100, 16), (false, 7, 16)]
        = 0 + (([(true, 100, 16), (false, 7, 16)] : List (Bool × Int × Int)).map
            fun c => c.2.2).sum
      ∧ runTX 0 [(true, 100, 16)] ≤ runTX 0 [(true, 100, 16), (false, 7, 16)] :=
  ⟨(tx_deadline_cursor 0 _).1,
   (tx_deadline_cursor 0 [(true, 100, 16), (false, 7, 16)]).2.2 (by decide)
    [(true, 100, 16)] [(false, 7, 16)] rfl⟩

theorem delimiter_per_extra_zero_witness :
    ((9 : Nat) ≤ 11 ∧ (8 : Nat) ≤ 8)
      ∧ (runReader ⟨0, 3, -1⟩ (List.replicate 11 false)
          = (⟨11, 3, -1⟩, List.replicate 3 Symbol.delimiter)
        ∧ readerStep ⟨8, 3, -1⟩ false = (⟨9, 3, -1⟩, some Symbol.delimiter)) :=
  ⟨by decide, delimiter_per_extra_zero 11 3 8 (by decide) (by decide)⟩

/-! ### Phase alignment of the correlator bank -/

/-- Segment of the cyclic expanded-code sample stream: samples a, a+1, ...,
a+b-1 of the stream that starts at code offset k. -/
def streamSeg (k a b : Nat) : List Bool :=
  (List.range' a b).map fun t => expandedCode ((k + t) % SequenceLength)

theorem run_append (ch : CorrelationChannel) (s1 s2 : List Bool) :
    ch.run (s1 ++ s2) = (ch.run s1).run s2 :=
  List.foldl_append _ _ _ _

theorem streamSeg_append (k a b c : Nat) :
    streamSeg k a b ++ streamSeg k (a + b) c = streamSeg k a (b + c) := by
  unfold streamSeg
  rw [← List.map_append]
  congr 1
  have h := List.range'_append_1 a b c
  rw [Nat.add_comm c b] at h
  exact h

theorem alignedStream_eq (k n : Nat) : alignedStream k n = streamSeg k 0 n := by
  unfold alignedStream streamSeg
  rw [List.range_eq_range']

set_option maxRecDepth 3000 in
theorem chanZeroPre100 : (bankChannel 0).run (streamSeg 0 0 100) = (⟨expandedCode, SequenceLength, 100, 100, 0, 0, false⟩ : CorrelationChannel) := by
  rfl

set_option maxRecDepth 3000 in
theorem chanZeroPre200 : (bankChannel 0).run (streamSeg 0 0 200) = (⟨expandedCode, SequenceLength, 200, 200, 0, 0, false⟩ : CorrelationChannel) := by
  have h : streamSeg 0 0 200 = streamSeg 0 0 100 ++ streamSeg 0 100 100 :=
    (streamSeg_append 0 0 100 100).symm
  rw [h, run_append, chanZeroPre100]
  rfl

set_option maxRecDepth 3000 in
theorem chanZeroPre300 : (bankChannel 0).run (streamSeg 0 0 300) = (⟨expandedCode, SequenceLength, 300, 300, 0, 0, false⟩ : CorrelationChannel) := by
  have h : streamSeg 0 0 300 = streamSeg 0 0 200 ++ streamSeg 0 200 100 :=
    (streamSeg_append 0 0 200 100).symm
  rw [h, run_append, chanZeroPre200]
  rfl

set_option maxRecDepth 3000 in
theorem chanZeroPre400 : (bankChannel 0).run (streamSeg 0 0 400) = (⟨expandedCode, SequenceLength, 400, 400, 0, 0, false⟩ : CorrelationChannel) := by
  have h : streamSeg 0 0 400 = streamSeg 0 0 300 ++ streamSeg 0 300 100 :=
    (streamSeg_append 0 0 300 100).symm
  rw [h, run_append, chanZeroPre300]
  rfl

set_option maxRecDepth 3000 in
theorem chanZeroPre500 : (bankChannel 0).run (streamSeg 0 0 500) = (⟨expandedCode, SequenceLength, 500, 500, 0, 0, false⟩ : CorrelationChannel) := by
  have h : streamSeg 0 0 500 = streamSeg 0 0 400 ++ streamSeg 0 400 100 :=
    (streamSeg_append 0 0 400 100).symm
  rw [h, run_append, chanZeroPre400]
  rfl

set_option maxRecDepth 3000 in
theorem chanZeroPre600 : (bankChannel 0).run (streamSeg 0 0 600) = (⟨expandedCode, SequenceLength, 600, 600, 0, 0, false⟩ : CorrelationChannel) := by
  have h : streamSeg 0 0 600 = streamSeg 0 0 500 ++ streamSeg 0 500 100 :=
    (streamSeg_append 0 0 500 100).symm
  rw [h, run_append, chanZeroPre500]
  rfl

set_option maxRecDepth 3000 in
theorem chanZeroPre700 : (bankChannel 0).run (streamSeg 0 0 700) = (⟨expandedCode, SequenceLength, 700, 700, 0, 0, false⟩ : CorrelationChannel) := by
  have h : streamSeg 0 0 700 = streamSeg 0 0 600 ++ streamSeg 0 600 100 :=
    (streamSeg_append 0 0 600 100).symm
  rw [h, run_append, chanZeroPre600]
  rfl

set_option maxRecDepth 3000 in
theorem chanZeroPre800 : (bankChannel 0).run (streamSeg 0 0 800) = (⟨expandedCode, SequenceLength, 800, 800, 0, 0, false⟩ : CorrelationChannel) := by
  have h : streamSeg 0 0 800 = streamSeg 0 0 700 ++ streamSeg 0 700 100 :=
    (streamSeg_append 0 0 700 100).symm
  rw [h, run_append, chanZeroPre700]
  rfl

set_option maxRecDepth 3000 in
theorem chanZeroPre900 : (bankChannel 0).run (streamSeg 0 0 900) = (⟨expandedCode, SequenceLength, 900, 900, 0, 0, false⟩ : CorrelationChannel) := by
  have h : streamSeg 0 0 900 = streamSeg 0 0 800 ++ streamSeg 0 800 100 :=
    (streamSeg_append 0 0 800 100).symm
  rw [h, run_append, chanZeroPre800]
  rfl

set_option maxRecDepth 3000 in
theorem chanZeroPre1000 : (bankChannel 0).run (streamSeg 0 0 1000) = (⟨expandedCode, SequenceLength, 1000, 1000, 0, 0, false⟩ : CorrelationChannel) := by
  have h : streamSeg 0 0 1000 = streamSeg 0 0 900 ++ streamSeg 0 900 100 :=
    (streamSeg_append 0 0 900 100).symm
  rw [h, run_append, chanZeroPre900]
  rfl

set_option maxRecDepth 3000 in
theorem chanZeroPre1100 : (bankChannel 0).run (streamSeg 0 0 1100) = (⟨expandedCode, SequenceLength, 1100, 1100, 0, 0, false⟩ : CorrelationChannel) := by
  have h : streamSeg 0 0 1100 = streamSeg 0 0 1000 ++ streamSeg 0 1000 100 :=
    (streamSeg_append 0 0 1000 100).symm
  rw [h, run_append, chanZeroPre1000]
  rfl

set_option maxRecDepth 3000 in
theorem chanZeroPre1200 : (bankChannel 0).run (streamSeg 0 0 1200) = (⟨expandedCode, SequenceLength, 1200, 1200, 0, 0, false⟩ : CorrelationChannel) := by
  have h : streamSeg 0 0 1200 = streamSeg 0 0 1100 ++ streamSeg 0 1100 100 :=
    (streamSeg_append 0 0 1100 100).symm
  rw [h, run_append, chanZeroPre1100]
  rfl

set_option maxRecDepth 3000 in
theorem chanZeroPre1300 : (bankChannel 0).run (streamSeg 0 0 1300) = (⟨expandedCode, SequenceLength, 1300, 1300, 0, 0, false⟩ : CorrelationChannel) := by
  have h : streamSeg 0 0 1300 = streamSeg 0 0 1200 ++ streamSeg 0 1200 100 :=
    (streamSeg_append 0 0 1200 100).symm
  rw [h, run_append, chanZeroPre1200]
  rfl

set_option maxRecDepth 3000 in
theorem chanZeroPre1400 : (bankChannel 0).run (streamSeg 0 0 1400) = (⟨expandedCode, SequenceLength, 1400, 1400, 0, 0, false⟩ : CorrelationChannel) := by
  have h : streamSeg 0 0 1400 = streamSeg 0 0 1300 ++ streamSeg 0 1300 100 :=
    (streamSeg_append 0 0 1300 100).symm
  rw [h, run_append, chanZeroPre1300]
  rfl

set_option maxRecDepth 3000 in
theorem chanZeroPre1500 : (bankChannel 0).run (streamSeg 0 0 1500) = (⟨expandedCode, SequenceLength, 1500, 1500, 0, 0, false⟩ : CorrelationChannel) := by
  have h : streamSeg 0 0 1500 = streamSeg 0 0 1400 ++ streamSeg 0 1400 100 :=
    (streamSeg_append 0 0 1400 100).symm
  rw [h, run_append, chanZeroPre1400]
  rfl

set_option maxRecDepth 3000 in
theorem chanZeroPre1600 : (bankChannel 0).run (streamSeg 0 0 1600) = (⟨expandedCode, SequenceLength, 1600, 1600, 0, 0, false⟩ : CorrelationChannel) := by
  have h : streamSeg 0 0 1600 = streamSeg 0 0 1500 ++ streamSeg 0 1500 100 :=
    (streamSeg_append 0 0 1500 100).symm
  rw [h, run_append, chanZeroPre1500]
  rfl

set_option maxRecDepth 3000 in
theorem chanZeroPre1700 : (bankChannel 0).run (streamSeg 0 0 1700) = (⟨expandedCode, SequenceLength, 1700, 1700, 0, 0, false⟩ : CorrelationChannel) := by
  have h : streamSeg 0 0 1700 = streamSeg 0 0 1600 ++ streamSeg 0 1600 100 :=
    (streamSeg_append 0 0 1600 100).symm
  rw [h, run_append, chanZeroPre1600]
  rfl

set_option maxRecDepth 3000 in
theorem chanZeroPre1800 : (bankChannel 0).run (streamSeg 0 0 1800) = (⟨expandedCode, SequenceLength, 1800, 1800, 0, 0, false⟩ : CorrelationChannel) := by
  have h : streamSeg 0 0 1800 = streamSeg 0 0 1700 ++ streamSeg 0 1700 100 :=
    (streamSeg_append 0 0 1700 100).symm
  rw [h, run_append, chanZeroPre1700]
  rfl

set_option maxRecDepth 3000 in
theorem chanZeroPre1900 : (bankChannel 0).run (streamSeg 0 0 1900) = (⟨expandedCode, SequenceLength, 1900, 1900, 0, 0, false⟩ : CorrelationChannel) := by
  have h : streamSeg 0 0 1900 = streamSeg 0 0 1800 ++ streamSeg 0 1800 100 :=
    (streamSeg_append 0 0 1800 100).symm
  rw [h, run_append, chanZeroPre1800]
  rfl

set_option maxRecDepth 3000 in
theorem chanZeroPre2000 : (bankChannel 0).run (streamSeg 0 0 2000) = (⟨expandedCode, SequenceLength, 2000, 2000, 0, 0, false⟩ : CorrelationChannel) := by
  have h : streamSeg 0 0 2000 = streamSeg 0 0 1900 ++ streamSeg 0 1900 100 :=
    (streamSeg_append 0 0 1900 100).symm
  rw [h, run_append, chanZeroPre1900]
  rfl

set_option maxRecDepth 3000 in
theorem chanZeroPre2100 : (bankChannel 0).run (streamSeg 0 0 2100) = (⟨expandedCode, SequenceLength, 2100, 2100, 0, 0, false⟩ : CorrelationChannel) := by
  have h : streamSeg 0 0 2100 = streamSeg 0 0 2000 ++ streamSeg 0 2000 100 :=
    (streamSeg_append 0 0 2000 100).symm
  rw [h, run_append, chanZeroPre2000]
  rfl

set_option maxRecDepth 3000 in
theorem chanZeroPre2200 : (bankChannel 0).run (streamSeg 0 0 2200) = (⟨expandedCode, SequenceLength, 2200, 2200, 0, 0, false⟩ : CorrelationChannel) := by
  have h : streamSeg 0 0 2200 = streamSeg 0 0 2100 ++ streamSeg 0 2100 100 :=
    (streamSeg_append 0 0 2100 100).symm
  rw [h, run_append, chanZeroPre2100]
  rfl

set_option maxRecDepth 3000 in
theorem chanZeroPre2300 : (bankChannel 0).run (streamSeg 0 0 2300) = (⟨expandedCode, SequenceLength, 2300, 2300, 0, 0, false⟩ : CorrelationChannel) := by
  have h : streamSeg 0 0 2300 = streamSeg 0 0 2200 ++ streamSeg 0 2200 100 :=
    (streamSeg_append 0 0 2200 100).symm
  rw [h, run_append, chanZeroPre2200]
  rfl

set_option maxRecDepth 3000 in
theorem chanZeroPre2400 : (bankChannel 0).run (streamSeg 0 0 2400) = (⟨expandedCode, SequenceLength, 2400, 2400, 0, 0, false⟩ : CorrelationChannel) := by
  have h : streamSeg 0 0 2400 = streamSeg 0 0 2300 ++ streamSeg 0 2300 100 :=
    (streamSeg_append 0 0 2300 100).symm
  rw [h, run_append, chanZeroPre2300]
  rfl

set_option maxRecDepth 3000 in
theorem chanZeroPre2500 : (bankChannel 0).run (streamSeg 0 0 2500) = (⟨expandedCode, SequenceLength, 2500, 2500, 0, 0, false⟩ : CorrelationChannel) := by
  have h : streamSeg 0 0 2500 = streamSeg 0 0 2400 ++ streamSeg 0 2400 100 :=
    (streamSeg_append 0 0 2400 100).symm
  rw [h, run_append, chanZeroPre2400]
  rfl

set_option maxRecDepth 3000 in
theorem chanZeroPre2600 : (bankChannel 0).run (streamSeg 0 0 2600) = (⟨expandedCode, SequenceLength, 2600, 2600, 0, 0, false⟩ : CorrelationChannel) := by
  have h : streamSeg 0 0 2600 = streamSeg 0 0 2500 ++ streamSeg 0 2500 100 :=
    (streamSeg_append 0 0 2500 100).symm
  rw [h, run_append, chanZeroPre2500]
  rfl

set_option maxRecDepth 3000 in
theorem chanZeroPre2700 : (bankChannel 0).run (streamSeg 0 0 2700) = (⟨expandedCode, SequenceLength, 2700, 2700, 0, 0, false⟩ : CorrelationChannel) := by
  have h : streamSeg 0 0 2700 = streamSeg 0 0 2600 ++ streamSeg 0 2600 100 :=
    (streamSeg_append 0 0 2600 100).symm
  rw [h, run_append, chanZeroPre2600]
  rfl

set_option maxRecDepth 3000 in
theorem chanZeroPre2800 : (bankChannel 0).run (streamSeg 0 0 2800) = (⟨expandedCode, SequenceLength, 2800, 2800, 0, 0, false⟩ : CorrelationChannel) := by
  have h : streamSeg 0 0 2800 = streamSeg 0 0 2700 ++ streamSeg 0 2700 100 :=
    (streamSeg_append 0 0 2700 100).symm
  rw [h, run_append, chanZeroPre2700]
  rfl

set_option maxRecDepth 3000 in
theorem chanZeroPre2900 : (bankChannel 0).run (streamSeg 0 0 2900) = (⟨expandedCode, SequenceLength, 2900, 2900, 0, 0, false⟩ : CorrelationChannel) := by
  have h : streamSeg 0 0 2900 = streamSeg 0 0 2800 ++ streamSeg 0 2800 100 :=
    (streamSeg_append 0 0 2800 100).symm
  rw [h, run_append, chanZeroPre2800]
  rfl

set_option maxRecDepth 3000 in
theorem chanZeroPre3000 : (bankChannel 0).run (streamSeg 0 0 3000) = (⟨expandedCode, SequenceLength, 3000, 3000, 0, 0, false⟩ : CorrelationChannel) := by
  have h : streamSeg 0 0 3000 = streamSeg 0 0 2900 ++ streamSeg 0 2900 100 :=
    (streamSeg_append 0 0 2900 100).symm
  rw [h, run_append, chanZeroPre2900]
  rfl

set_option maxRecDepth 3000 in
theorem chanZeroPre3069 : (bankChannel 0).run (streamSeg 0 0 3069) = (⟨expandedCode, SequenceLength, 3069, 3069, 0, 0, false⟩ : CorrelationChannel) := by
  have h : streamSeg 0 0 3069 = streamSeg 0 0 3000 ++ streamSeg 0 3000 69 :=
    (streamSeg_append 0 0 3000 69).symm
  rw [h, run_append, chanZeroPre3000]
  rfl

set_option maxRecDepth 3000 in
theorem chanZeroPre3070 : (bankChannel 0).run (streamSeg 0 0 3070) = (⟨expandedCode, SequenceLength, 1, 1, 0, mkRat 1 1, true⟩ : CorrelationChannel) := by
  have h : streamSeg 0 0 3070 = streamSeg 0 0 3069 ++ streamSeg 0 3069 1 :=
    (streamSeg_append 0 0 3069 1).symm
  rw [h, run_append, chanZeroPre3069]
  rfl

set_option maxRecDepth 3000 in
theorem chanOnePre100 : (bankChannel 1).run (streamSeg 0 0 100) = (⟨expandedCode, SequenceLength, 101, 84, 16, 0, false⟩ : CorrelationChannel) := by
  rfl

set_option maxRecDepth 3000 in
theorem chanOnePre200 : (bankChannel 1).run (streamSeg 0 0 200) = (⟨expandedCode, SequenceLength, 201, 166, 34, 0, false⟩ : CorrelationChannel) := by
  have h : streamSeg 0 0 200 = streamSeg 0 0 100 ++ streamSeg 0 100 100 :=
    (streamSeg_append 0 0 100 100).symm
  rw [h, run_append, chanOnePre100]
  rfl

set_option maxRecDepth 3000 in
theorem chanOnePre300 : (bankChannel 1).run (streamSeg 0 0 300) = (⟨expandedCode, SequenceLength, 301, 247, 53, 0, false⟩ : CorrelationChannel) := by
  have h : streamSeg 0 0 300 = streamSeg 0 0 200 ++ streamSeg 0 200 100 :=
    (streamSeg_append 0 0 200 100).symm
  rw [h, run_append, chanOnePre200]
  rfl

set_option maxRecDepth 3000 in
theorem chanOnePre400 : (bankChannel 1).run (streamSeg 0 0 400) = (⟨expandedCode, SequenceLength, 401, 332, 68, 0, false⟩ : CorrelationChannel) := by
  have h : streamSeg 0 0 400 = streamSeg 0 0 300 ++ streamSeg 0 300 100 :=
    (streamSeg_append 0 0 300 100).symm
  rw [h, run_append, chanOnePre300]
  rfl

set_option maxRecDepth 3000 in
theorem chanOnePre500 : (bankChannel 1).run (streamSeg 0 0 500) = (⟨expandedCode, SequenceLength, 501, 415, 85, 0, false⟩ : CorrelationChannel) := by
  have h : streamSeg 0 0 500 = streamSeg 0 0 400 ++ streamSeg 0 400 100 :=
    (streamSeg_append 0 0 400 100).symm
  rw [h, run_append, chanOnePre400]
  rfl

set_option maxRecDepth 3000 in
theorem chanOnePre600 : (bankChannel 1).run (streamSeg 0 0 600) = (⟨expandedCode, SequenceLength, 601, 497, 103, 0, false⟩ : CorrelationChannel) := by
  have h : streamSeg 0 0 600 = streamSeg 0 0 500 ++ streamSeg 0 500 100 :=
    (streamSeg_append 0 0 500 100).symm
  rw [h, run_append, chanOnePre500]
  rfl

set_option maxRecDepth 3000 in
theorem chanOnePre700 : (bankChannel 1).run (streamSeg 0 0 700) = (⟨expandedCode, SequenceLength, 701, 585, 115, 0, false⟩ : CorrelationChannel) := by
  have h : streamSeg 0 0 700 = streamSeg 0 0 600 ++ streamSeg 0 600 100 :=
    (streamSeg_append 0 0 600 100).symm
  rw [h, run_append, chanOnePre600]
  rfl

set_option maxRecDepth 3000 in
theorem chanOnePre800 : (bankChannel 1).run (streamSeg 0 0 800) = (⟨expandedCode, SequenceLength, 801, 668, 132, 0, false⟩ : CorrelationChannel) := by
  have h : streamSeg 0 0 800 = streamSeg 0 0 700 ++ streamSeg 0 700 100 :=
    (streamSeg_append 0 0 700 100).symm
  rw [h, run_append, chanOnePre700]
  rfl

set_option maxRecDepth 3000 in
theorem chanOnePre900 : (bankChannel 1).run (streamSeg 0 0 900) = (⟨expandedCode, SequenceLength, 901, 750, 150, 0, false⟩ : CorrelationChannel) := by
  have h : streamSeg 0 0 900 = streamSeg 0 0 800 ++ streamSeg 0 800 100 :=
    (streamSeg_append 0 0 800 100).symm
  rw [h, run_append, chanOnePre800]
  rfl

set_option maxRecDepth 3000 in
theorem chanOnePre1000 : (bankChannel 1).run (streamSeg 0 0 1000) = (⟨expandedCode, SequenceLength, 1001, 837, 163, 0, false⟩ : CorrelationChannel) := by
  have h : streamSeg 0 0 1000 = streamSeg 0 0 900 ++ streamSeg 0 900 100 :=
    (streamSeg_append 0 0 900 100).symm
  rw [h, run_append, chanOnePre900]
  rfl

set_option maxRecDepth 3000 in
theorem chanOnePre1100 : (bankChannel 1).run (streamSeg 0 0 1100) = (⟨expandedCode, SequenceLength, 1101, 919, 181, 0, false⟩ : CorrelationChannel) := by
  have h : streamSeg 0 0 1100 = streamSeg 0 0 1000 ++ streamSeg 0 1000 100 :=
    (streamSeg_append 0 0 1000 100).symm
  rw [h, run_append, chanOnePre1000]
  rfl

set_option maxRecDepth 3000 in
theorem chanOnePre1200 : (bankChannel 1).run (streamSeg 0 0 1200) = (⟨expandedCode, SequenceLength, 1201, 1005, 195, 0, false⟩ : CorrelationChannel) := by
  have h : streamSeg 0 0 1200 = streamSeg 0 0 1100 ++ streamSeg 0 1100 100 :=
    (streamSeg_append 0 0 1100 100).symm
  rw [h, run_append, chanOnePre1100]
  rfl

set_option maxRecDepth 3000 in
theorem chanOnePre1300 : (bankChannel 1).run (streamSeg 0 0 1300) = (⟨expandedCode, SequenceLength, 1301, 1082, 218, 0, false⟩ : CorrelationChannel) := by
  have h : streamSeg 0 0 1300 = streamSeg 0 0 1200 ++ streamSeg 0 1200 100 :=
    (streamSeg_append 0 0 1200 100).symm
  rw [h, run_append, chanOnePre1200]
  rfl

set_option maxRecDepth 3000 in
theorem chanOnePre1400 : (bankChannel 1).run (streamSeg 0 0 1400) = (⟨expandedCode, SequenceLength, 1401, 1163, 237, 0, false⟩ : CorrelationChannel) := by
  have h : streamSeg 0 0 1400 = streamSeg 0 0 1300 ++ streamSeg 0 1300 100 :=
    (streamSeg_append 0 0 1300 100).symm
  rw [h, run_append, chanOnePre1300]
  rfl

set_option maxRecDepth 3000 in
theorem chanOnePre1500 : (bankChannel 1).run (streamSeg 0 0 1500) = (⟨expandedCode, SequenceLength, 1501, 1244, 256, 0, false⟩ : CorrelationChannel) := by
  have h : streamSeg 0 0 1500 = streamSeg 0 0 1400 ++ streamSeg 0 1400 100 :=
    (streamSeg_append 0 0 1400 100).symm
  rw [h, run_append, chanOnePre1400]
  rfl

set_option maxRecDepth 3000 in
theorem chanOnePre1600 : (bankChannel 1).run (streamSeg 0 0 1600) = (⟨expandedCode, SequenceLength, 1601, 1327, 273, 0, false⟩ : CorrelationChannel) := by
  have h : streamSeg 0 0 1600 = streamSeg 0 0 1500 ++ streamSeg 0 1500 100 :=
    (streamSeg_append 0 0 1500 100).symm
  rw [h, run_append, chanOnePre1500]
  rfl

set_option maxRecDepth 3000 in
theorem chanOnePre1700 : (bankChannel 1).run (streamSeg 0 0 1700) = (⟨expandedCode, SequenceLength, 1701, 1413, 287, 0, false⟩ : CorrelationChannel) := by
  have h : streamSeg 0 0 1700 = streamSeg 0 0 1600 ++ streamSeg 0 1600 100 :=
    (streamSeg_append 0 0 1600 100).symm
  rw [h, run_append, chanOnePre1600]
  rfl

set_option maxRecDepth 3000 in
theorem chanOnePre1800 : (bankChannel 1).run (streamSeg 0 0 1800) = (⟨expandedCode, SequenceLength, 1801, 1496, 304, 0, false⟩ : CorrelationChannel) := by
  have h : streamSeg 0 0 1800 = streamSeg 0 0 1700 ++ streamSeg 0 1700 100 :=
    (streamSeg_append 0 0 1700 100).symm
  rw [h, run_append, chanOnePre1700]
  rfl

set_option maxRecDepth 3000 in
theorem chanOnePre1900 : (bankChannel 1).run (streamSeg 0 0 1900) = (⟨expandedCode, SequenceLength, 1901, 1580, 320, 0, false⟩ : CorrelationChannel) := by
  have h : streamSeg 0 0 1900 = streamSeg 0 0 1800 ++ streamSeg 0 1800 100 :=
    (streamSeg_append 0 0 1800 100).symm
  rw [h, run_append, chanOnePre1800]
  rfl

set_option maxRecDepth 3000 in
theorem chanOnePre2000 : (bankChannel 1).run (streamSeg 0 0 2000) = (⟨expandedCode, SequenceLength, 2001, 1665, 335, 0, false⟩ : CorrelationChannel) := by
  have h : streamSeg 0 0 2000 = streamSeg 0 0 1900 ++ streamSeg 0 1900 100 :=
    (streamSeg_append 0 0 1900 100).symm
  rw [h, run_append, chanOnePre1900]
  rfl

set_option maxRecDepth 3000 in
theorem chanOnePre2100 : (bankChannel 1).run (streamSeg 0 0 2100) = (⟨expandedCode, SequenceLength, 2101, 1746, 354, 0, false⟩ : CorrelationChannel) := by
  have h : streamSeg 0 0 2100 = streamSeg 0 0 2000 ++ streamSeg 0 2000 100 :=
    (streamSeg_append 0 0 2000 100).symm
  rw [h, run_append, chanOnePre2000]
  rfl

set_option maxRecDepth 3000 in
theorem chanOnePre2200 : (bankChannel 1).run (streamSeg 0 0 2200) = (⟨expandedCode, SequenceLength, 2201, 1829, 371, 0, false⟩ : CorrelationChannel) := by
  have h : streamSeg 0 0 2200 = streamSeg 0 0 2100 ++ streamSeg 0 2100 100 :=
    (streamSeg_append 0 0 2100 100).symm
  rw [h, run_append, chanOnePre2100]
  rfl

set_option maxRecDepth 3000 in
theorem chanOnePre2300 : (bankChannel 1).run (streamSeg 0 0 2300) = (⟨expandedCode, SequenceLength, 2301, 1918, 382, 0, false⟩ : CorrelationChannel) := by
  have h : streamSeg 0 0 2300 = streamSeg 0 0 2200 ++ streamSeg 0 2200 100 :=
    (streamSeg_append 0 0 2200 100).symm
  rw [h, run_append, chanOnePre2200]
  rfl

set_option maxRecDepth 3000 in
theorem chanOnePre2400 : (bankChannel 1).run (streamSeg 0 0 2400) = (⟨expandedCode, SequenceLength, 2401, 2001, 399, 0, false⟩ : CorrelationChannel) := by
  have h : streamSeg 0 0 2400 = streamSeg 0 0 2300 ++ streamSeg 0 2300 100 :=
    (streamSeg_append 0 0 2300 100).symm
  rw [h, run_append, chanOnePre2300]
  rfl

set_option maxRecDepth 3000 in
theorem chanOnePre2500 : (bankChannel 1).run (streamSeg 0 0 2500) = (⟨expandedCode, SequenceLength, 2501, 2085, 415, 0, false⟩ : CorrelationChannel) := by
  have h : streamSeg 0 0 2500 = streamSeg 0 0 2400 ++ streamSeg 0 2400 100 :=
    (streamSeg_append 0 0 2400 100).symm
  rw [h, run_append, chanOnePre2400]
  rfl

set_option maxRecDepth 3000 in
theorem chanOnePre2600 : (bankChannel 1).run (streamSeg 0 0 2600) = (⟨expandedCode, SequenceLength, 2601, 2171, 429, 0, false⟩ : CorrelationChannel) := by
  have h : streamSeg 0 0 2600 = streamSeg 0 0 2500 ++ streamSeg 0 2500 100 :=
    (streamSeg_append 0 0 2500 100).symm
  rw [h, run_append, chanOnePre2500]
  rfl

set_option maxRecDepth 3000 in
theorem chanOnePre2700 : (bankChannel 1).run (streamSeg 0 0 2700) = (⟨expandedCode, SequenceLength, 2701, 2256, 444, 0, false⟩ : CorrelationChannel) := by
  have h : streamSeg 0 0 2700 = streamSeg 0 0 2600 ++ streamSeg 0 2600 100 :=
    (streamSeg_append 0 0 2600 100).symm
  rw [h, run_append, chanOnePre2600]
  rfl

set_option maxRecDepth 3000 in
theorem chanOnePre2800 : (bankChannel 1).run (streamSeg 0 0 2800) = (⟨expandedCode, SequenceLength, 2801, 2338, 462, 0, false⟩ : CorrelationChannel) := by
  have h : streamSeg 0 0 2800 = streamSeg 0 0 2700 ++ streamSeg 0 2700 100 :=
    (streamSeg_append 0 0 2700 100).symm
  rw [h, run_append, chanOnePre2700]
  rfl

set_option maxRecDepth 3000 in
theorem chanOnePre2900 : (bankChannel 1).run (streamSeg 0 0 2900) = (⟨expandedCode, SequenceLength, 2901, 2420, 480, 0, false⟩ : CorrelationChannel) := by
  have h : streamSeg 0 0 2900 = streamSeg 0 0 2800 ++ streamSeg 0 2800 100 :=
    (streamSeg_append 0 0 2800 100).symm
  rw [h, run_append, chanOnePre2800]
  rfl

set_option maxRecDepth 3000 in
theorem chanOnePre3000 : (bankChannel 1).run (streamSeg 0 0 3000) = (⟨expandedCode, SequenceLength, 3001, 2500, 500, 0, false⟩ : CorrelationChannel) := by
  have h : streamSeg 0 0 3000 = streamSeg 0 0 2900 ++ streamSeg 0 2900 100 :=
    (streamSeg_append 0 0 2900 100).symm
  rw [h, run_append, chanOnePre2900]
  rfl

set_option maxRecDepth 3000 in
theorem chanOnePre3069 : (bankChannel 1).run (streamSeg 0 0 3069) = (⟨expandedCode, SequenceLength, 1, 0, 1, mkRat 2 3, true⟩ : CorrelationChannel) := by
  have h : streamSeg 0 0 3069 = streamSeg 0 0 3000 ++ streamSeg 0 3000 69 :=
    (streamSeg_append 0 0 3000 69).symm
  rw [h, run_append, chanOnePre3000]
  rfl

set_option maxRecDepth 3000 in
theorem chanOnePre3070 : (bankChannel 1).run (streamSeg 0 0 3070) = (⟨expandedCode, SequenceLength, 2, 1, 1, mkRat 2 3, true⟩ : CorrelationChannel) := by
  have h : streamSeg 0 0 3070 = streamSeg 0 0 3069 ++ streamSeg 0 3069 1 :=
    (streamSeg_append 0 0 3069 1).symm
  rw [h, run_append, chanOnePre3069]
  rfl

/-- C7 counterexample: with the sample stream being the expanded spread code
from offset k = 0, after one full code period (3069 samples) channel 0 still
reports correlation 0 (its period-end update has not yet run), while channel
1 reports 2/3, far above 1/L = 1/1023; one sample later channel 1 still
reports 2/3.  The 3-fold oversampled code is strongly correlated with its
own 1-sample shift, so off-phase channels are not bounded by 1/L. -/
theorem phase_alignment_counterexample :
    ((bankChannel 0).run (alignedStream 0 3069)).correlation = 0
      ∧ ((bankChannel 1).run (alignedStream 0 3069)).correlation = 2/3
      ∧ ((bankChannel 1).run (alignedStream 0 3070)).correlation = 2/3
      ∧ ¬((2 : ℚ)/3 ≤ 1/1023) := by
  refine ⟨?_, ?_, ?_, by norm_num⟩
  · rw [alignedStream_eq, chanZeroPre3069]
  · rw [alignedStream_eq, chanOnePre3069]
    show (mkRat 2 3 : ℚ) = 2/3
    rw [Rat.mkRat_eq_div]
    norm_num
  · rw [alignedStream_eq, chanOnePre3070]
    show (mkRat 2 3 : ℚ) = 2/3
    rw [Rat.mkRat_eq_div]
    norm_num

/-- Feeding a run of samples that all match the code at the advancing cursor,
with no wrap inside the run, adds the run length to the cursor and to the hi
counter and leaves everything else unchanged. -/
theorem run_matching (n : Nat) : ∀ (ch : CorrelationChannel) (f : Nat → Bool) (a : Nat),
    ch.position + n ≤ ch.codeLen →
    (∀ i, i < n → f (a + i) = ch.spreadCode (ch.position + i)) →
    ch.run ((List.range' a n).map f)
      = ⟨ch.spreadCode, ch.codeLen, ch.position + n, ch.matchHi + n, ch.matchLo,
         ch.correlation, ch.state⟩ := by
  induction n with
  | zero =>
    intro ch f a _ _
    cases ch
    simp [CorrelationChannel.run]
  | succ n ih =>
    intro ch f a h1 h2
    rw [List.range'_succ, List.map_cons]
    have hrun : CorrelationChannel.run ch (f a :: (List.range' (a + 1) n).map f)
        = CorrelationChannel.run (ch.feed (f a)).1 ((List.range' (a + 1) n).map f) := by
      simp [CorrelationChannel.run]
    rw [hrun]
    have hnw : ¬ (ch.codeLen ≤ ch.position) := by omega
    have hmatch : f a = ch.spreadCode ch.position := by
      have h0 := h2 0 (by omega)
      simpa using h0
    have hfeed : (ch.feed (f a)).1
        = ⟨ch.spreadCode, ch.codeLen, ch.position + 1, ch.matchHi + 1, ch.matchLo,
           ch.correlation, ch.state⟩ := by
      dsimp only [CorrelationChannel.feed]
      rw [if_neg hnw, if_pos hmatch]
    rw [hfeed]
    have hshift : ∀ i, i < n → f (a + 1 + i) = ch.spreadCode (ch.position + 1 + i) := by
      intro i hi
      have h3 := h2 (i + 1) (by omega)
      rw [show a + (i + 1) = a + 1 + i from by omega,
          show ch.position + (i + 1) = ch.position + 1 + i from by omega] at h3
      exact h3
    rw [show ch.position + (n + 1) = ch.position + 1 + n from by omega,
        show ch.matchHi + (n + 1) = ch.matchHi + 1 + n from by omega]
    exact ih ⟨ch.spreadCode, ch.codeLen, ch.position + 1, ch.matchHi + 1, ch.matchLo,
      ch.correlation, ch.state⟩ f (a + 1) (by simp; omega) hshift

/-- A feed that starts past the code end and whose sample matches the first
code element performs the period-end update and then consumes the sample as
the first hit of the new period. -/
theorem feed_wrap_match (ch : CorrelationChannel) (s : Bool)
    (h : ch.codeLen ≤ ch.position) (hs : s = ch.spreadCode 0) :
    (ch.feed s).1
      = ⟨ch.spreadCode, ch.codeLen, 1, 1, 0, ch.updateCorrelation,
         decide (ch.matchLo < ch.matchHi)⟩ := by
  dsimp only [CorrelationChannel.feed]
  rw [if_pos h, if_pos hs]

theorem run_single (ch : CorrelationChannel) (s : Bool) : ch.run [s] = (ch.feed s).1 := rfl

/-- The period-end update of a channel whose counters record a fully matched
period reports correlation exactly 1. -/
theorem updateCorrelation_all_match (code : Nat → Bool) (len n : Nat) (c : ℚ) (st : Bool)
    (hn : 0 < n) :
    CorrelationChannel.updateCorrelation ⟨code, len, n, n, 0, c, st⟩ = 1 := by
  dsimp only [CorrelationChannel.updateCorrelation]
  simp only [if_pos hn]
  rw [Nat.sub_zero, Rat.mkRat_eq_div]
  have hcast : ((n : Int) : ℚ) = (n : ℚ) := by push_cast; ring
  rw [hcast]
  exact div_self (Nat.cast_ne_zero.mpr (by omega))

/-- With the sample stream being the expanded spread code starting at offset
k, channel k reaches correlation exactly 1 after 2·SequenceLength − k + 1
samples: the stream matches the code at the channel's cursor throughout, so
the channel's first period-end update that follows a fully aligned period
divides a full match count by a full period. -/
theorem phase_alignment_general (k : Nat) (hk : k < SequenceLength) :
    ((bankChannel k).run
        (alignedStream k (2 * SequenceLength - k + 1))).correlation = 1 := by
  have hSL : SequenceLength = 3069 := rfl
  obtain ⟨m, hm⟩ : ∃ m, SequenceLength = k + m + 1 :=
    ⟨SequenceLength - k - 1, by omega⟩
  -- the four stream segments: aligned run to the code end, wrap feed, full
  -- aligned period, final wrap feed
  have e1 := streamSeg_append k 0 (m + 1) 1
  rw [Nat.zero_add] at e1
  have e2 := streamSeg_append k 0 (m + 1 + 1) (k + m)
  rw [Nat.zero_add] at e2
  have e3 := streamSeg_append k 0 (m + 1 + 1 + (k + m)) 1
  rw [Nat.zero_add] at e3
  have hcount : 2 * SequenceLength - k + 1 = m + 1 + 1 + (k + m) + 1 := by omega
  have hstream : alignedStream k (2 * SequenceLength - k + 1)
      = ((streamSeg k 0 (m + 1) ++ streamSeg k (m + 1) 1)
          ++ streamSeg k (m + 1 + 1) (k + m)) ++ streamSeg k (m + 1 + 1 + (k + m)) 1 := by
    rw [alignedStream_eq, hcount, ← e3, ← e2, ← e1]
  rw [hstream, run_append, run_append, run_append]
  -- phase 1: from cursor k, m + 1 samples match code positions k .. k + m
  have p1 : (bankChannel k).run (streamSeg k 0 (m + 1))
      = ⟨expandedCode, SequenceLength, k + (m + 1), 0 + (m + 1), 0, 0, false⟩ := by
    apply run_matching (m + 1) (bankChannel k)
        (fun t => expandedCode ((k + t) % SequenceLength)) 0
    · show k + (m + 1) ≤ SequenceLength
      omega
    · intro i hi
      show expandedCode ((k + (0 + i)) % SequenceLength) = expandedCode (k + i)
      congr 1
      rw [hSL] at hm ⊢
      omega
  rw [p1]
  -- phase 2: the wrap feed consuming sample code[0]
  have p2 : (⟨expandedCode, SequenceLength, k + (m + 1), 0 + (m + 1), 0, 0, false⟩
        : CorrelationChannel).run (streamSeg k (m + 1) 1)
      = ⟨expandedCode, SequenceLength, 1, 1, 0,
         CorrelationChannel.updateCorrelation
           ⟨expandedCode, SequenceLength, k + (m + 1), 0 + (m + 1), 0, 0, false⟩,
         decide ((0 : Nat) < 0 + (m + 1))⟩ := by
    rw [show streamSeg k (m + 1) 1
        = [expandedCode ((k + (m + 1)) % SequenceLength)] from rfl, run_single]
    apply feed_wrap_match
    · show SequenceLength ≤ k + (m + 1)
      omega
    · show expandedCode ((k + (m + 1)) % SequenceLength) = expandedCode 0
      congr 1
      rw [hSL] at hm ⊢
      omega
  rw [p2]
  generalize CorrelationChannel.updateCorrelation _ = c2
  generalize decide ((0 : Nat) < 0 + (m + 1)) = st2
  -- phase 3: a full aligned period, cursor 1 .. SequenceLength
  have p3 : (⟨expandedCode, SequenceLength, 1, 1, 0, c2, st2⟩
        : CorrelationChannel).run (streamSeg k (m + 1 + 1) (k + m))
      = ⟨expandedCode, SequenceLength, 1 + (k + m), 1 + (k + m), 0, c2, st2⟩ := by
    apply run_matching (k + m)
        (⟨expandedCode, SequenceLength, 1, 1, 0, c2, st2⟩ : CorrelationChannel)
        (fun t => expandedCode ((k + t) % SequenceLength)) (m + 1 + 1)
    · show 1 + (k + m) ≤ SequenceLength
      omega
    · intro i hi
      show expandedCode ((k + (m + 1 + 1 + i)) % SequenceLength) = expandedCode (1 + i)
      congr 1
      rw [hSL] at hm ⊢
      omega
  rw [p3]
  -- phase 4: the period-end update after the fully aligned period
  have p4 : (⟨expandedCode, SequenceLength, 1 + (k + m), 1 + (k + m), 0, c2, st2⟩
        : CorrelationChannel).run (streamSeg k (m + 1 + 1 + (k + m)) 1)
      = ⟨expandedCode, SequenceLength, 1, 1, 0,
         CorrelationChannel.updateCorrelation
           ⟨expandedCode, SequenceLength, 1 + (k + m), 1 + (k + m), 0, c2, st2⟩,
         decide ((0 : Nat) < 1 + (k + m))⟩ := by
    rw [show streamSeg k (m + 1 + 1 + (k + m)) 1
        = [expandedCode ((k + (m + 1 + 1 + (k + m))) % SequenceLength)] from rfl,
      run_single]
    apply feed_wrap_match
    · show SequenceLength ≤ 1 + (k + m)
      omega
    · show expandedCode ((k + (m + 1 + 1 + (k + m))) % SequenceLength) = expandedCode 0
      congr 1
      rw [hSL] at hm ⊢
      omega
  rw [p4]
  show CorrelationChannel.updateCorrelation
      ⟨expandedCode, SequenceLength, 1 + (k + m), 1 + (k + m), 0, c2, st2⟩ = 1
  exact updateCorrelation_all_match expandedCode SequenceLength (1 + (k + m)) c2 st2
    (by omega)

/-- C7 amended: with the sample stream being the expanded spread code
starting at offset k, channel k's correlation estimate is exactly 1 after
2·SequenceLength − k + 1 samples, once a full aligned period has completed
and its period-end update has run (for k = 0 the estimate is already 1 one
sample after the first period, at sample 3070); but other channels'
correlations need not drop to 1/L or below: channel 1, offset by a single
sample from the k = 0 stream, holds correlation 2/3 at that time. -/
theorem phase_alignment_amended :
    (∀ k, k < SequenceLength →
      ((bankChannel k).run
          (alignedStream k (2 * SequenceLength - k + 1))).correlation = 1)
      ∧ ((bankChannel 0).run (alignedStream 0 3070)).correlation = 1
      ∧ ((bankChannel 1).run (alignedStream 0 3070)).correlation = 2/3 := by
  refine ⟨phase_alignment_general, ?_, ?_⟩
  · rw [alignedStream_eq, chanZeroPre3070]
    show (mkRat 1 1 : ℚ) = 1
    rw [Rat.mkRat_eq_div]
    norm_num
  · rw [alignedStream_eq, chanOnePre3070]
    show (mkRat 2 3 : ℚ) = 2/3
    rw [Rat.mkRat_eq_div]
    norm_num

theorem phase_alignment_amended_witness :
    (0 : Nat) < SequenceLength
      ∧ ((bankChannel 0).run
          (alignedStream 0 (2 * SequenceLength - 0 + 1))).correlation = 1 :=
  ⟨by decide, phase_alignment_amended.1 0 (by decide)⟩

end SideChannel
